import Mathlib

/-!
Verification of the RustHound-CE Enterprise CA access-control decoding
(`src/objects/enterpriseca.rs`) against its specification.

Byte buffers are modelled as `List Nat` (each element a byte value; helpers
reduce modulo 256 where bytes are assembled into integers).  Rust functions
that can abort via a panic are modelled with an `Option` result where `none`
stands for the panic.  Components of the repository that are not part of the
audited file (`SecurityDescriptor::parse`, `Acl::parse`, `AceFormat`,
`sid_maker`, `parse_ca_security`, `MaskFlags`) are modelled from the
specification and marked as such in their doc comments.
-/

namespace RustHound

/-- Assemble two little-endian bytes into a 16-bit value. -/
def u16 (b0 b1 : Nat) : Nat := b0 % 256 + 256 * (b1 % 256)

/-- Assemble four little-endian bytes into a 32-bit value. -/
def u32 (b0 b1 b2 b3 : Nat) : Nat :=
  b0 % 256 + 256 * (b1 % 256) + 65536 * (b2 % 256) + 16777216 * (b3 % 256)

/-- Read a little-endian 32-bit value from the head of a byte list. -/
def readU32LE (bs : List Nat) : Option Nat :=
  match bs with
  | b0 :: b1 :: b2 :: b3 :: _ => some (u32 b0 b1 b2 b3)
  | _ => none

/-- Modelled from the spec: binary SID layout (§4.1): revision byte,
sub-authority count byte, 6-byte big-endian identifier authority, then the
little-endian 32-bit sub-authorities.  (The `LdapSid` type of the repository
is declared outside the audited file.) -/
structure LdapSid where
  revision : Nat
  identifier_authority : Nat
  sub_authority : List Nat
  deriving Repr, DecidableEq

/-- Read `k` little-endian 32-bit sub-authorities; fails if the buffer is too
short (spec §4.1: MalformedBuffer when the declared count would read past the
buffer end). -/
def readSubAuths : Nat → List Nat → Option (List Nat)
  | 0, _ => some []
  | k + 1, bs =>
    match readU32LE bs, readSubAuths k (bs.drop 4) with
    | some v, some vs => some (v :: vs)
    | _, _ => none

/-- Modelled from the spec: SID decoding (§4.1).  Fails with `none`
(MalformedBuffer) when the declared sub-authority count would read past the
buffer end. -/
def parse_sid (bs : List Nat) : Option LdapSid :=
  match bs with
  | rev :: cnt :: a0 :: a1 :: a2 :: a3 :: a4 :: a5 :: rest =>
    match readSubAuths cnt rest with
    | some subs =>
      some ⟨rev,
        ((((a0 % 256 * 256 + a1 % 256) * 256 + a2 % 256) * 256 + a3 % 256) * 256
          + a4 % 256) * 256 + a5 % 256,
        subs⟩
    | none => none
  | _ => none

/-- Canonical string of a SID (spec §3): `S-<revision>-<authority>-<sub1>-...`. -/
def LdapSid.canonical (sid : LdapSid) : String :=
  "S-" ++ Nat.repr sid.revision ++ "-" ++ Nat.repr sid.identifier_authority
    ++ sid.sub_authority.foldl (fun acc v => acc ++ "-" ++ Nat.repr v) ""

/-- Modelled from the spec: `sid_maker` (§4.1) renders the canonical SID
string, optionally qualified by the supplied domain label for display.
Modelled as qualifying only short well-known SIDs (fewer than four
sub-authorities); qualification never changes the trailing `-RID` suffix on
which all downstream tests rely. -/
def sid_maker (sid : LdapSid) (domain : String) : String :=
  if sid.sub_authority.length < 4 then domain ++ "-" ++ sid.canonical
  else sid.canonical

/-- Model of Rust `str::ends_with`: the characters of the suffix are a
suffix of the characters of the string. -/
def str_ends_with (s suffix : String) : Bool :=
  suffix.data.reverse.isPrefixOf s.data.reverse

/-- Modelled from the spec: security descriptor header (§4.5): revision,
control bit-field and the four byte offsets, all relative to the start of the
buffer. -/
structure SecurityDescriptor where
  revision : Nat
  sbz1 : Nat
  control : Nat
  offset_owner : Nat
  offset_group : Nat
  offset_sacl : Nat
  offset_dacl : Nat
  deriving Repr, DecidableEq

/-- Modelled from the spec: `SecurityDescriptor::parse` (§4.5) reads the fixed
20-byte header; a buffer too short to contain it is a MalformedBuffer failure
(§7).  Per §4.5/§3 the DACL offset is validated against the buffer length
before anything reads at it: an out-of-range offset yields "no DACL",
modelled by storing offset 0. -/
def SecurityDescriptor.parse (bs : List Nat) : Except String SecurityDescriptor :=
  match bs with
  | r :: s :: c0 :: c1 :: o0 :: o1 :: o2 :: o3 :: g0 :: g1 :: g2 :: g3 ::
      sa0 :: sa1 :: sa2 :: sa3 :: d0 :: d1 :: d2 :: d3 :: _ =>
    let rawDacl := u32 d0 d1 d2 d3
    Except.ok
      { revision := r
        sbz1 := s
        control := u16 c0 c1
        offset_owner := u32 o0 o1 o2 o3
        offset_group := u32 g0 g1 g2 g3
        offset_sacl := u32 sa0 sa1 sa2 sa3
        offset_dacl := if rawDacl < bs.length then rawDacl else 0 }
  | _ => Except.error "MalformedBuffer"

/-- Modelled from the spec: the `AceFormat` payload of one decoded ACE
(§3/§4.4): allow/deny/audit variants carry a rights mask and the trustee SID;
object-specific variants additionally carry the object-flags word; `Empty`
stands for a payload carrying neither. -/
inductive AceFormat where
  | AceBasic (mask : Nat) (sid : LdapSid)
  | AceObject (mask : Nat) (objFlags : Nat) (sid : LdapSid)
  | Empty
  deriving Repr, DecidableEq

/-- Accessor `AceFormat::get_sid`: the trustee SID of the payload, if any. -/
def AceFormat.get_sid : AceFormat → Option LdapSid
  | .AceBasic _ sid => some sid
  | .AceObject _ _ sid => some sid
  | .Empty => none

/-- Accessor `AceFormat::get_mask`: the rights mask of the payload, if any. -/
def AceFormat.get_mask : AceFormat → Option Nat
  | .AceBasic mask _ => some mask
  | .AceObject mask _ _ => some mask
  | .Empty => none

/-- One decoded ACE: type tag, flag byte, self-declared size and payload
(spec §3). -/
structure Ace where
  ace_type : Nat
  ace_flags : Nat
  ace_size : Nat
  data : AceFormat
  deriving Repr, DecidableEq

/-- Modelled from the spec: type-dispatched decoding of the content of one ACE
(§4.4).  Allow (0x00), deny (0x01) and audit (0x02) ACEs carry a 32-bit mask
then the trustee SID; object-specific allow/deny (0x05/0x06) carry mask,
object-flags and the GUIDs the flags announce before the SID.  Unknown type
tags (UnsupportedAceType) and structurally truncated contents
(MalformedBuffer) yield `none`, and the ACE is skipped. -/
def parseAceContent (t : Nat) (content : List Nat) : Option AceFormat :=
  if t == 0 || t == 1 || t == 2 then
    match readU32LE content, parse_sid (content.drop 4) with
    | some mask, some sid => some (.AceBasic mask sid)
    | _, _ => none
  else if t == 5 || t == 6 then
    match readU32LE content, readU32LE (content.drop 4) with
    | some mask, some objFlags =>
      match parse_sid (content.drop (8 + ((if objFlags % 2 == 1 then 16 else 0)
          + (if objFlags / 2 % 2 == 1 then 16 else 0)))) with
      | some sid => some (.AceObject mask objFlags sid)
      | none => none
    | _, _ => none
  else none

/-- Modelled from the spec: ACE iteration of the ACL parser (§4.6): iterate
the declared ACE count, advancing by the self-declared length of each ACE,
stopping
early (without failing) when a slice would run past the declared end; skipped
ACEs (unsupported or malformed, §4.4) are excluded and decoding continues at
the next offset. -/
def parseAces : Nat → List Nat → List Ace
  | 0, _ => []
  | k + 1, bs =>
    match bs with
    | t :: f :: s0 :: s1 :: rest =>
      if u16 s0 s1 < 4 || rest.length + 4 < u16 s0 s1 then []
      else
        match parseAceContent t (rest.take (u16 s0 s1 - 4)) with
        | some fmt => ⟨t, f, u16 s0 s1, fmt⟩ :: parseAces k (rest.drop (u16 s0 s1 - 4))
        | none => parseAces k (rest.drop (u16 s0 s1 - 4))
    | _ => []

/-- One decoded ACL (spec §3): revision, declared size, declared ACE count and
the ordered decoded ACEs. -/
structure Acl where
  acl_revision : Nat
  sbz1 : Nat
  acl_size : Nat
  sbz2 : Nat
  count : Nat
  data : List Ace
  deriving Repr, DecidableEq

/-- Modelled from the spec: `Acl::parse` (§4.6) reads the 8-byte ACL header
(revision, declared byte size, declared ACE count) and then the ACEs, bounded
by the declared size; a buffer too short for the header is a MalformedBuffer
failure. -/
def Acl.parse (bs : List Nat) : Except String Acl :=
  match bs with
  | r :: s1 :: z0 :: z1 :: c0 :: c1 :: s2a :: s2b :: rest =>
    Except.ok
      ⟨r, s1, u16 z0 z1, u16 s2a s2b, u16 c0 c1,
        parseAces (u16 c0 c1) (rest.take (u16 z0 z1 - 8))⟩
  | _ => Except.error "MalformedBuffer"

/-- Modelled from the spec: the Manage Certificates flag of `MaskFlags`
(§4.3).  The spec names the flag without fixing its numeric value; the
CertSrv ManageCertificates bit (value 2) is used.  No theorem below depends
on the particular value. -/
def MANAGE_CERTIFICATES_bits : Nat := 2

/-- The contains-all rights test exactly as the hosting-computer scan writes
it (line 271 of the source): `(required | observed) == observed`. -/
def containsAll (observed required : Nat) : Bool :=
  (required ||| observed) == observed

/-- The fixed blacklist of well-known high-privilege RID suffixes from
`get_hosting_computer` (source lines 250-255). -/
def blacklist_sid : List String := ["-544", "-519", "-512"]

/-- The blacklist membership test from source line 272:
`blacklist_sid.iter().any(|blacklisted| sid.ends_with(blacklisted))`. -/
def inBlacklist (sid : String) : Bool :=
  blacklist_sid.any (fun b => str_ends_with sid b)

/-- The rendered (domain-qualified) trustee SID string of one ACE, as the scan
computes it; empty when the payload carries no SID. -/
def sidOf (domain : String) (ace : Ace) : String :=
  match AceFormat.get_sid ace.data with
  | some s => sid_maker s domain
  | none => ""

/-- The condition under which the hosting-computer scan accepts an ACE: plain
allow type (0x00), mask containing Manage Certificates by the OR-equality
test, trustee SID suffix not blacklisted (source lines 265-273). -/
def hostingQualifies (domain : String) (ace : Ace) : Bool :=
  ace.ace_type == 0 &&
    (match AceFormat.get_mask ace.data with
     | some mask =>
       containsAll mask MANAGE_CERTIFICATES_bits && !(inBlacklist (sidOf domain ace))
     | none => false)

/-- The ACE loop of `get_hosting_computer` (source lines 264-279).  `none`
models the panic of the `.unwrap()` on `AceFormat::get_sid` at line 266 when
a plain allow ACE carries no SID; `continue` on a missing mask and the early
`return` on the first qualifying ACE are as in the source. -/
def hostingLoop (domain : String) : List Ace → Option String
  | [] => some "Not found"
  | ace :: rest =>
    if ace.ace_type == 0 then
      match AceFormat.get_sid ace.data with
      | none => none
      | some s =>
        match AceFormat.get_mask ace.data with
        | none => hostingLoop domain rest
        | some mask =>
          if containsAll mask MANAGE_CERTIFICATES_bits
              && !(inBlacklist (sid_maker s domain)) then
            some (sid_maker s domain)
          else hostingLoop domain rest
    else hostingLoop domain rest

/-- Embedding of `EnterpriseCA::get_hosting_computer` (source lines 245-285).
Here `none`
models a panic: the `.unwrap()` at line 256 panics whenever
`SecurityDescriptor::parse` fails (buffer shorter than the fixed header).
A failed `Acl::parse` is logged and falls through to the initial
`"Not found"` value, as in the source. -/
def get_hosting_computer (nt : List Nat) (domain : String) : Option String :=
  match SecurityDescriptor.parse nt with
  | .error _ => none
  | .ok secdesc =>
    if secdesc.offset_dacl ≠ 0 then
      match Acl.parse (nt.drop secdesc.offset_dacl) with
      | .ok dacl => hostingLoop domain dacl.data
      | .error _ => some "Not found"
    else some "Not found"

/-- Modelled from the spec: the CA-relevant rights subset of `MaskFlags`
(§4.8: Manage CA, Manage Certificates, Enroll, Auto-Enroll).  The spec fixes
no numeric values; CertSrv-style bits are used.  No theorem below depends on
the particular values. -/
def CA_RELEVANT_bits : Nat := 1 ||| MANAGE_CERTIFICATES_bits ||| 256 ||| 512

/-- Model of the `AceTemplate` type of the repository restricted to what a
`CaSecurityEntry` carries (spec §3): principal identifier, semantic right
names, inherited flag. -/
structure AceTemplate where
  principal_sid : String
  right_names : List String
  is_inherited : Bool
  deriving Repr, DecidableEq

/-- Semantic right names of the CA-relevant bits present in a mask
(spec §4.8/§3: the right set of an edge is the set of named rights whose bit
is present). -/
def caRightNames (mask : Nat) : List String :=
  (if containsAll mask 1 then ["ManageCA"] else [])
    ++ (if containsAll mask MANAGE_CERTIFICATES_bits then ["ManageCertificates"] else [])
    ++ (if containsAll mask 256 then ["Enroll"] else [])
    ++ (if containsAll mask 512 then ["AutoEnroll"] else [])

/-- Modelled from the spec: `parse_ca_security` / CaRightsFilter (§4.8): runs
the same descriptor→DACL decode and retains only allow/deny edges whose right
set intersects the CA-relevant subset; an absent DACL offset or a decode
failure yields the empty list.  The hosting-computer argument the source
passes is accepted and not used by the filter the spec describes. -/
def parse_ca_security (nt : List Nat) (_hosting : String) (domain : String) :
    List AceTemplate :=
  match SecurityDescriptor.parse nt with
  | .error _ => []
  | .ok sd =>
    if sd.offset_dacl = 0 then []
    else
      match Acl.parse (nt.drop sd.offset_dacl) with
      | .error _ => []
      | .ok acl =>
        acl.data.filterMap fun ace =>
          if ace.ace_type == 0 || ace.ace_type == 1 || ace.ace_type == 5
              || ace.ace_type == 6 then
            match AceFormat.get_mask ace.data, AceFormat.get_sid ace.data with
            | some mask, some sid =>
              if mask &&& CA_RELEVANT_bits ≠ 0 then
                some ⟨sid_maker sid domain, caRightNames mask, ace.ace_flags / 16 % 2 == 1⟩
              else none
            | _, _ => none
          else none

/-- Embedding of `CASecurity` (source lines 437-445): collected CA security entries, the
collected flag and the optional failure reason. -/
structure CASecurity where
  data : List AceTemplate
  collected : Bool
  failure_reason : Option String
  deriving Repr, DecidableEq

/-- The slice of `EnterpriseCA` state written by the `nTSecurityDescriptor`
branch of `EnterpriseCA::parse` (source lines 154-176): hosting computer,
CA security block and the `casecuritycollected` property. -/
structure CAState where
  hosting_computer : String
  ca_security : CASecurity
  casecuritycollected : Bool
  deriving Repr, DecidableEq

/-- The `nTSecurityDescriptor` handling of `EnterpriseCA::parse` (source
lines 154-176): compute the hosting computer, run `parse_ca_security`, and
fold the result into a `CASecurity` block — collected with no failure reason
when the list is non-empty, otherwise empty data, collected `false` and the
fixed failure reason.  `none` propagates the panic of
`get_hosting_computer`. -/
def handleNTSecurityDescriptor (nt : List Nat) (domain : String) : Option CAState :=
  match get_hosting_computer nt domain with
  | none => none
  | some hc =>
    if (parse_ca_security nt hc domain).isEmpty then
      some ⟨hc, ⟨[], false, some "Failed to get CASecurity!"⟩, false⟩
    else
      some ⟨hc, ⟨parse_ca_security nt hc domain, true, none⟩, true⟩

/-- Subset of `EnterpriseCAProperties` (source lines 361-383) written by the
`cACertificate` branch and the CA-security branch. -/
structure EnterpriseCAProperties where
  certthumbprint : String
  certname : String
  certchain : List String
  hasbasicconstraints : Bool
  basicconstraintpathlength : Nat
  casecuritycollected : Bool
  deriving Repr, DecidableEq

/-- The `Default` values of the modelled properties (source lines 385-410). -/
def EnterpriseCAProperties.default : EnterpriseCAProperties :=
  { certthumbprint := ""
    certname := ""
    certchain := []
    hasbasicconstraints := false
    basicconstraintpathlength := 0
    casecuritycollected := false }

/-- The Basic Constraints extension payload as x509-parser exposes it: the CA
flag and the optional path-length constraint (a 32-bit unsigned value). -/
structure BasicConstraints where
  ca : Bool
  path_len_constraint : Option Nat
  deriving Repr, DecidableEq

/-- The parsed payload of one certificate extension: either a Basic
Constraints value or some other extension kind. -/
inductive ParsedExtension where
  | BasicConstraintsExt (bc : BasicConstraints)
  | Other
  deriving Repr, DecidableEq

/-- One certificate extension: its OID (as the numeric component list) and
its parsed payload. -/
structure Extension where
  oid : List Nat
  parsed : ParsedExtension
  deriving Repr, DecidableEq

/-- A DER-decoded certificate, reduced to its extension list — the only part
the `cACertificate` branch inspects. -/
structure Certificate where
  extensions : List Extension
  deriving Repr, DecidableEq

/-- One iteration of the extension loop of the `cACertificate` branch (source
lines 190-217): only an extension with OID 2.5.29.19 whose payload parses as
Basic Constraints touches the two Basic Constraints properties; a positive
path-length constraint records it, a zero or absent constraint resets both
fields. -/
def applyExtension (p : EnterpriseCAProperties) (ext : Extension) :
    EnterpriseCAProperties :=
  if ext.oid == [2, 5, 29, 19] then
    match ext.parsed with
    | .BasicConstraintsExt bc =>
      match bc.path_len_constraint with
      | some n =>
        if 0 < n then
          { p with hasbasicconstraints := true, basicconstraintpathlength := n }
        else
          { p with hasbasicconstraints := false, basicconstraintpathlength := 0 }
      | none =>
        { p with hasbasicconstraints := false, basicconstraintpathlength := 0 }
    | .Other => p
  else p

/-- The `cACertificate` branch of `EnterpriseCA::parse` (source lines
178-221).  The SHA-1 content hash (computed by `calculate_sha1`, outside the
audited file) and the result of `X509Certificate::from_der` (an external
crate) are taken as arguments; `none` is a DER parse failure.  The source
sets `certthumbprint`, `certname` and `certchain` from the hash before the
DER parse is attempted, then walks the extensions only on success; a parse
failure is merely logged. -/
def handleCACertificate (p : EnterpriseCAProperties) (certsha1 : String)
    (der : Option Certificate) : EnterpriseCAProperties :=
  match der with
  | some cert =>
    cert.extensions.foldl applyExtension
      { p with certthumbprint := certsha1, certname := certsha1,
               certchain := [certsha1] }
  | none =>
    { p with certthumbprint := certsha1, certname := certsha1,
             certchain := [certsha1] }

/-- Placeholder for the `SPNTarget` type of the repository (declared outside the
audited file); its content is never inspected here. -/
inductive SPNTarget where
  | mk
  deriving Repr, DecidableEq

/-- Placeholder for the `Link` type of the repository (declared outside the
audited file); its content is never inspected here. -/
inductive Link where
  | mk
  deriving Repr, DecidableEq

/-- Model of the `Member` type of the repository reduced to the fields the audited file
uses. -/
structure Member where
  object_identifier : String
  object_type : String
  deriving Repr, DecidableEq

/-- Embedding of `EnterpriseCA` reduced to the fields its `LdapObject` implementation
reads or writes (source lines 21-41, 288-357). -/
structure EnterpriseCA where
  hosting_computer : String
  enabled_cert_templates : List Member
  object_identifier : String
  is_deleted : Bool
  is_acl_protected : Bool
  contained_by : Option Member
  properties : EnterpriseCAProperties
  deriving Repr, DecidableEq

/-- Embedding of `EnterpriseCA::new` (source lines 45-47): all fields default. -/
def EnterpriseCA.new : EnterpriseCA :=
  { hosting_computer := ""
    enabled_cert_templates := []
    object_identifier := ""
    is_deleted := false
    is_acl_protected := false
    contained_by := none
    properties := EnterpriseCAProperties.default }

/-- Embedding of `LdapObject::get_spntargets` for `EnterpriseCA` (source line 304): the
body aborts the process with the message "Not used by current object.";
modelled as `none`. -/
def EnterpriseCA.get_spntargets (_ : EnterpriseCA) : Option (List SPNTarget) :=
  none

/-- Embedding of `LdapObject::get_allowed_to_delegate` for `EnterpriseCA`
(source line 307): aborts with "Not used by current object."; modelled as `none`. -/
def EnterpriseCA.get_allowed_to_delegate (_ : EnterpriseCA) : Option (List Member) :=
  none

/-- Embedding of `LdapObject::get_links` for `EnterpriseCA` (source line 310): aborts with
"Not used by current object."; modelled as `none`. -/
def EnterpriseCA.get_links (_ : EnterpriseCA) : Option (List Link) :=
  none

/-- Embedding of `LdapObject::get_child_objects` for `EnterpriseCA` (source line 316):
aborts with "Not used by current object."; modelled as `none`. -/
def EnterpriseCA.get_child_objects (_ : EnterpriseCA) : Option (List Member) :=
  none

/-- Embedding of `LdapObject::get_spntargets_mut` for `EnterpriseCA` (source line 327):
aborts with "Not used by current object."; modelled as `none`. -/
def EnterpriseCA.get_spntargets_mut (_ : EnterpriseCA) : Option (List SPNTarget) :=
  none

/-- Embedding of `LdapObject::get_allowed_to_delegate_mut` for `EnterpriseCA`
(source line 330): aborts with "Not used by current object."; modelled as `none`. -/
def EnterpriseCA.get_allowed_to_delegate_mut (_ : EnterpriseCA) :
    Option (List Member) :=
  none

/-- Embedding of `LdapObject::set_spntargets` for `EnterpriseCA` (source line 342): an
explicit no-op. -/
def EnterpriseCA.set_spntargets (ca : EnterpriseCA) (_ : List SPNTarget) :
    EnterpriseCA := ca

/-- Embedding of `LdapObject::set_allowed_to_delegate` for `EnterpriseCA`
(source line 345): an explicit no-op. -/
def EnterpriseCA.set_allowed_to_delegate (ca : EnterpriseCA) (_ : List Member) :
    EnterpriseCA := ca

/-- Embedding of `LdapObject::set_links` for `EnterpriseCA` (source line 348): an explicit
no-op. -/
def EnterpriseCA.set_links (ca : EnterpriseCA) (_ : List Link) :
    EnterpriseCA := ca

/-- Embedding of `LdapObject::set_child_objects` for `EnterpriseCA` (source line 354): an
explicit no-op. -/
def EnterpriseCA.set_child_objects (ca : EnterpriseCA) (_ : List Member) :
    EnterpriseCA := ca

/-- Embedding of `LdapObject::get_haslaps` for `EnterpriseCA` (source line 319): always
`false`. -/
def EnterpriseCA.get_haslaps (_ : EnterpriseCA) : Bool := false

/-! Concrete byte-level inputs used by the witnesses and counterexamples. -/

/-- Binary SID `S-1-5-21-1-2-3-1105` (a non-blacklisted domain principal). -/
def sidBytes1105 : List Nat :=
  [1, 5, 0, 0, 0, 0, 0, 5, 21, 0, 0, 0, 1, 0, 0, 0, 2, 0, 0, 0, 3, 0, 0, 0,
   81, 4, 0, 0]

/-- Binary SID `S-1-5-21-1-2-3-512` (Domain Admins, a blacklisted RID). -/
def sidBytes512 : List Nat :=
  [1, 5, 0, 0, 0, 0, 0, 5, 21, 0, 0, 0, 1, 0, 0, 0, 2, 0, 0, 0, 3, 0, 0, 0,
   0, 2, 0, 0]

/-- Plain allow ACE (type 0x00) granting Manage Certificates (mask 2) to the
`-1105` principal. -/
def aceAllowMC1105 : List Nat :=
  [0, 0, 36, 0] ++ [2, 0, 0, 0] ++ sidBytes1105

/-- Plain allow ACE (type 0x00) granting full control (mask 0xFF, which
contains Manage Certificates) to the blacklisted `-512` principal. -/
def aceAllowFC512 : List Nat :=
  [0, 0, 36, 0] ++ [255, 0, 0, 0] ++ sidBytes512

/-- Plain allow ACE (type 0x00) granting only a non-CA right
(mask 0x10000000) to the `-1105` principal. -/
def aceAllowGeneric1105 : List Nat :=
  [0, 0, 36, 0] ++ [0, 0, 0, 16] ++ sidBytes1105

/-- Object-specific allow ACE (type 0x05, no object GUIDs) granting Manage
Certificates to the `-1105` principal. -/
def aceObjectMC1105 : List Nat :=
  [5, 0, 40, 0] ++ [2, 0, 0, 0] ++ [0, 0, 0, 0] ++ sidBytes1105

/-- Security-descriptor header whose DACL offset is 20 (the DACL follows the
header immediately). -/
def descHeaderDacl20 : List Nat :=
  [1, 0, 0, 0, 0, 0, 0, 0, 0, 0, 0, 0, 0, 0, 0, 0, 20, 0, 0, 0]

/-- Security-descriptor header whose DACL offset is 0 (no DACL). -/
def descHeaderNoDacl : List Nat :=
  [1, 0, 0, 0, 0, 0, 0, 0, 0, 0, 0, 0, 0, 0, 0, 0, 0, 0, 0, 0]

/-- Descriptor with the Manage-Certificates ACE for `-1105` first and the
blacklisted full-control ACE for `-512` second. -/
def bufMC1105First : List Nat :=
  descHeaderDacl20 ++ ([2, 0, 80, 0, 2, 0, 0, 0] ++ aceAllowMC1105 ++ aceAllowFC512)

/-- Descriptor with the blacklisted full-control ACE for `-512` first and the
Manage-Certificates ACE for `-1105` second. -/
def buf512First : List Nat :=
  descHeaderDacl20 ++ ([2, 0, 80, 0, 2, 0, 0, 0] ++ aceAllowFC512 ++ aceAllowMC1105)

/-- Descriptor whose only ACE grants no CA-relevant right: the DACL decodes
but nothing qualifies. -/
def bufNoCaRights : List Nat :=
  descHeaderDacl20 ++ ([2, 0, 44, 0, 1, 0, 0, 0] ++ aceAllowGeneric1105)

/-- Descriptor whose only Manage-Certificates grant sits in an
object-specific (type 0x05) ACE. -/
def bufObjectAceOnly : List Nat :=
  descHeaderDacl20 ++ ([2, 0, 48, 0, 1, 0, 0, 0] ++ aceObjectMC1105)

end RustHound
namespace RustHound

theorem containsAll_iff (observed required : Nat) :
    containsAll observed required = true ↔
      ∀ i, Nat.testBit required i = true → Nat.testBit observed i = true := by
  unfold containsAll
  rw [beq_iff_eq]
  constructor
  · intro h i hi
    have h2 := congrArg (fun n => Nat.testBit n i) h
    simp only [Nat.testBit_lor, hi, Bool.true_or] at h2
    exact h2.symm
  · intro h
    apply Nat.eq_of_testBit_eq
    intro i
    rw [Nat.testBit_lor]
    cases hr : Nat.testBit required i with
    | false => simp
    | true => simp [h i hr]

theorem parseAceContent_sid_isSome {t : Nat} {content : List Nat} {fmt : AceFormat}
    (h : parseAceContent t content = some fmt) :
    (AceFormat.get_sid fmt).isSome = true := by
  unfold parseAceContent at h
  split at h
  all_goals repeat split at h
  all_goals first
    | (injection h with h; subst h; rfl)
    | exact Option.noConfusion h

theorem mem_parseAces_sid_isSome :
    ∀ (k : Nat) (bs : List Nat) (ace : Ace), ace ∈ parseAces k bs →
      (AceFormat.get_sid ace.data).isSome = true := by
  intro k
  induction k with
  | zero => intro bs ace h; simp [parseAces] at h
  | succ k ih =>
    intro bs ace h
    unfold parseAces at h
    split at h
    · split at h
      · simp at h
      · split at h
        · rcases List.mem_cons.mp h with h1 | h1
          · subst h1
            exact parseAceContent_sid_isSome (by assumption)
          · exact ih _ _ h1
        · exact ih _ _ h
    · simp at h

theorem acl_parse_sid_isSome {bs : List Nat} {acl : Acl}
    (h : Acl.parse bs = .ok acl) :
    ∀ ace ∈ acl.data, (AceFormat.get_sid ace.data).isSome = true := by
  unfold Acl.parse at h
  split at h
  · injection h with h
    subst h
    intro ace hm
    exact mem_parseAces_sid_isSome _ _ _ hm
  · exact Except.noConfusion h

end RustHound
namespace RustHound

theorem hostingLoop_eq_find (domain : String) (l : List Ace)
    (h : ∀ ace ∈ l, ace.ace_type = 0 → (AceFormat.get_sid ace.data).isSome = true) :
    hostingLoop domain l =
      match l.find? (hostingQualifies domain) with
      | some ace => some (sidOf domain ace)
      | none => some "Not found" := by
  induction l with
  | nil => rfl
  | cons a l ih =>
    have hrest : ∀ ace ∈ l, ace.ace_type = 0 → (AceFormat.get_sid ace.data).isSome = true :=
      fun ace hm => h ace (List.mem_cons_of_mem a hm)
    by_cases ht : a.ace_type = 0
    · have hsome := h a (List.mem_cons_self a l) ht
      cases hs : AceFormat.get_sid a.data with
      | none => rw [hs] at hsome; simp at hsome
      | some s =>
        cases hm : AceFormat.get_mask a.data with
        | none =>
          have hq : hostingQualifies domain a = false := by
            unfold hostingQualifies
            rw [hm]
            simp
          rw [List.find?_cons_of_neg _ (by simp [hq])]
          simp only [hostingLoop, ht, hs, hm]
          simp only [beq_self_eq_true, if_true]
          exact ih hrest
        | some mask =>
          by_cases hc : (containsAll mask MANAGE_CERTIFICATES_bits
              && !(inBlacklist (sid_maker s domain))) = true
          · have hq : hostingQualifies domain a = true := by
              unfold hostingQualifies
              rw [hm]
              unfold sidOf
              rw [hs, ht]
              simpa using hc
            rw [List.find?_cons_of_pos _ hq]
            simp only [hostingLoop, ht, hs, hm]
            simp only [beq_self_eq_true, if_true, hc, if_true]
            unfold sidOf
            rw [hs]
          · have hq : hostingQualifies domain a = false := by
              unfold hostingQualifies
              rw [hm]
              unfold sidOf
              rw [hs, ht]
              simpa using hc
            rw [List.find?_cons_of_neg _ (by simp [hq])]
            simp only [hostingLoop, ht, hs, hm]
            simp only [beq_self_eq_true, if_true, hc, if_false]
            exact ih hrest
    · have hq : hostingQualifies domain a = false := by
        unfold hostingQualifies
        simp [ht]
      rw [List.find?_cons_of_neg _ (by simp [hq])]
      simp only [hostingLoop]
      rw [if_neg (by simpa using ht)]
      exact ih hrest

end RustHound
namespace RustHound

theorem hostingLoop_skip (domain : String) (pre post : List Ace) (ace : Ace)
    (h : ace.ace_type ≠ 0) :
    hostingLoop domain (pre ++ ace :: post) = hostingLoop domain (pre ++ post) := by
  induction pre with
  | nil =>
    simp only [List.nil_append]
    conv_lhs => rw [hostingLoop]
    rw [if_neg (by simpa using h)]
  | cons a pre ih =>
    simp only [List.cons_append]
    conv_lhs => rw [hostingLoop]
    conv_rhs => rw [hostingLoop]
    by_cases ht : (a.ace_type == 0) = true
    · rw [if_pos ht, if_pos ht]
      cases hs : AceFormat.get_sid a.data with
      | none => rfl
      | some s =>
        cases hm : AceFormat.get_mask a.data with
        | none => exact ih
        | some mask =>
          dsimp only
          by_cases hc : (containsAll mask MANAGE_CERTIFICATES_bits
              && !(inBlacklist (sid_maker s domain))) = true
          · rw [if_pos hc, if_pos hc]
          · rw [if_neg hc, if_neg hc]
            exact ih
    · rw [if_neg ht, if_neg ht]
      exact ih

theorem get_hosting_eq_find (nt : List Nat) (domain : String)
    (sd : SecurityDescriptor) (acl : Acl)
    (h1 : SecurityDescriptor.parse nt = .ok sd)
    (h2 : sd.offset_dacl ≠ 0)
    (h3 : Acl.parse (nt.drop sd.offset_dacl) = .ok acl) :
    get_hosting_computer nt domain =
      match acl.data.find? (hostingQualifies domain) with
      | some ace => some (sidOf domain ace)
      | none => some "Not found" := by
  unfold get_hosting_computer
  rw [h1]
  simp only [h2, if_true, ne_eq, not_false_eq_true]
  rw [h3]
  exact hostingLoop_eq_find domain acl.data
    (fun ace hm _ => acl_parse_sid_isSome h3 ace hm)

end RustHound
namespace RustHound

/-- C1: the rights-containment test grants a required right if and only if
every bit set in the required mask is also set in the observed mask,
formulated as the OR-equality `(observed | required) == observed`; the
hosting-computer scan grants Manage Certificates exactly under this test, and
observed `0b0011` is granted required `0b0001` but not required `0b0100`. -/
theorem rights_containment_or_equality :
    (∀ observed required : Nat,
        containsAll observed required = true ↔
          ∀ i, Nat.testBit required i = true → Nat.testBit observed i = true)
    ∧ (∀ m : Nat,
        ((MANAGE_CERTIFICATES_bits ||| m) == m) = true ↔
          ∀ i, Nat.testBit MANAGE_CERTIFICATES_bits i = true → Nat.testBit m i = true)
    ∧ containsAll 3 1 = true
    ∧ containsAll 3 4 = false :=
  ⟨containsAll_iff,
   fun m => containsAll_iff m MANAGE_CERTIFICATES_bits,
   by decide, by decide⟩

theorem rights_containment_or_equality_witness :
    containsAll 3 1 = true ∧ Nat.testBit 3 0 = true :=
  ⟨rights_containment_or_equality.2.2.1,
   (rights_containment_or_equality.1 3 1).mp (by decide) 0 (by decide)⟩

/-- C2: for every descriptor buffer with a usable DACL, `get_hosting_computer`
returns the rendered SID of the trustee of the first allow ACE in stored DACL
order that qualifies (plain allow type, mask containing Manage Certificates,
SID suffix not blacklisted), returning on that first match. -/
theorem hosting_computer_first_match (nt : List Nat) (domain : String)
    (sd : SecurityDescriptor) (acl : Acl) (ace : Ace)
    (h1 : SecurityDescriptor.parse nt = .ok sd)
    (h2 : sd.offset_dacl ≠ 0)
    (h3 : Acl.parse (nt.drop sd.offset_dacl) = .ok acl)
    (h4 : acl.data.find? (hostingQualifies domain) = some ace) :
    get_hosting_computer nt domain = some (sidOf domain ace) := by
  rw [get_hosting_eq_find nt domain sd acl h1 h2 h3, h4]

theorem hosting_computer_first_match_witness :
    get_hosting_computer bufMC1105First "ESSOS.LOCAL" = some "S-1-5-21-1-2-3-1105"
    ∧ get_hosting_computer buf512First "ESSOS.LOCAL" = some "S-1-5-21-1-2-3-1105" := by
  constructor
  · exact hosting_computer_first_match bufMC1105First "ESSOS.LOCAL" _ _ _ rfl
      (by decide) rfl rfl
  · exact hosting_computer_first_match buf512First "ESSOS.LOCAL" _ _ _ rfl
      (by decide) rfl rfl

end RustHound
namespace RustHound

/-- C3 (refuting evaluation): on an empty `nTSecurityDescriptor` buffer —
too short for the fixed descriptor header — `get_hosting_computer` panics
(the `.unwrap()` on `SecurityDescriptor::parse` at source line 256), and the
`nTSecurityDescriptor` branch of `EnterpriseCA::parse` aborts with it,
instead of returning normally; `none` models the panic. -/
theorem hosting_computer_panics_on_short_descriptor :
    get_hosting_computer [] "ESSOS.LOCAL" = none
    ∧ handleNTSecurityDescriptor [] "ESSOS.LOCAL" = none :=
  ⟨rfl, rfl⟩

/-- C4: whenever the descriptor header parses and either the DACL offset is
0, or the ACL fails to parse, or no ACE qualifies (every Manage-Certificates
grantee blacklisted or no plain allow ACE granting it), the scan returns the
sentinel "Not found". -/
theorem hosting_computer_not_found (nt : List Nat) (domain : String)
    (sd : SecurityDescriptor)
    (h1 : SecurityDescriptor.parse nt = .ok sd)
    (h2 : sd.offset_dacl = 0
      ∨ (∃ e, Acl.parse (nt.drop sd.offset_dacl) = .error e)
      ∨ (∃ acl, Acl.parse (nt.drop sd.offset_dacl) = .ok acl
          ∧ acl.data.find? (hostingQualifies domain) = none)) :
    get_hosting_computer nt domain = some "Not found" := by
  rcases h2 with h2 | ⟨e, h2⟩ | ⟨acl, h2, h3⟩
  · unfold get_hosting_computer
    rw [h1]
    simp [h2]
  · by_cases hz : sd.offset_dacl = 0
    · unfold get_hosting_computer
      rw [h1]
      simp [hz]
    · unfold get_hosting_computer
      rw [h1]
      simp only [ne_eq, hz, not_false_eq_true, if_true]
      rw [h2]
  · by_cases hz : sd.offset_dacl = 0
    · unfold get_hosting_computer
      rw [h1]
      simp [hz]
    · rw [get_hosting_eq_find nt domain sd acl h1 hz h2, h3]

theorem hosting_computer_not_found_witness :
    get_hosting_computer bufNoCaRights "ESSOS.LOCAL" = some "Not found"
    ∧ get_hosting_computer descHeaderNoDacl "ESSOS.LOCAL" = some "Not found" := by
  constructor
  · exact hosting_computer_not_found bufNoCaRights "ESSOS.LOCAL" _ rfl
      (Or.inr (Or.inr ⟨_, rfl, rfl⟩))
  · exact hosting_computer_not_found descHeaderNoDacl "ESSOS.LOCAL" _ rfl
      (Or.inl rfl)

end RustHound
namespace RustHound

/-- C5: when the DACL offset is 0 or the CA-security decode fails (the ACL
does not parse), the `nTSecurityDescriptor` branch of `EnterpriseCA::parse`
produces a `CASecurity` with an empty data list, `collected = false` and the
fixed human-readable failure reason, and sets `casecuritycollected = false`,
rather than surfacing an error. -/
theorem ca_security_degraded_result (nt : List Nat) (domain : String)
    (sd : SecurityDescriptor)
    (h1 : SecurityDescriptor.parse nt = .ok sd)
    (h2 : sd.offset_dacl = 0 ∨ ∃ e, Acl.parse (nt.drop sd.offset_dacl) = .error e) :
    handleNTSecurityDescriptor nt domain
      = some ⟨"Not found", ⟨[], false, some "Failed to get CASecurity!"⟩, false⟩ := by
  have hempty : ∀ hc, parse_ca_security nt hc domain = [] := by
    intro hc
    unfold parse_ca_security
    rw [h1]
    rcases h2 with h2 | ⟨e, h2⟩
    · simp [h2]
    · by_cases hz : sd.offset_dacl = 0
      · simp [hz]
      · simp only [hz, if_false]
        rw [h2]
  have hhost : get_hosting_computer nt domain = some "Not found" :=
    hosting_computer_not_found nt domain sd h1
      (h2.elim Or.inl (fun he => Or.inr (Or.inl he)))
  unfold handleNTSecurityDescriptor
  rw [hhost]
  simp [hempty]

theorem ca_security_degraded_result_witness :
    handleNTSecurityDescriptor descHeaderNoDacl "ESSOS.LOCAL"
      = some ⟨"Not found", ⟨[], false, some "Failed to get CASecurity!"⟩, false⟩ :=
  ca_security_degraded_result descHeaderNoDacl "ESSOS.LOCAL" _ rfl (Or.inl rfl)

/-- C9: whenever the `nTSecurityDescriptor` branch completes, the
`CASecurity` collected flag is true exactly when the data list is non-empty,
the failure reason is present exactly when collected is false — and then it
is always the fixed string "Failed to get CASecurity!", indistinguishable
from a decode failure — and `casecuritycollected` mirrors the collected
flag. -/
theorem ca_security_collected_invariant (nt : List Nat) (domain : String)
    (st : CAState) (h : handleNTSecurityDescriptor nt domain = some st) :
    (st.ca_security.collected = true ↔ st.ca_security.data ≠ [])
    ∧ (st.ca_security.failure_reason.isSome = true ↔ st.ca_security.collected = false)
    ∧ (st.ca_security.collected = false →
        st.ca_security.failure_reason = some "Failed to get CASecurity!")
    ∧ st.casecuritycollected = st.ca_security.collected := by
  unfold handleNTSecurityDescriptor at h
  split at h
  · exact Option.noConfusion h
  · split at h
    · injection h with h
      subst h
      simp
    · rename_i hne
      injection h with h
      subst h
      refine ⟨by simp; intro habs; rw [habs] at hne; simp at hne, by simp, by simp, rfl⟩

theorem ca_security_collected_invariant_witness :
    (false = true ↔ ([] : List AceTemplate) ≠ [])
    ∧ ((some "Failed to get CASecurity!" : Option String).isSome = true ↔ false = false)
    ∧ (false = false →
        (some "Failed to get CASecurity!" : Option String) = some "Failed to get CASecurity!")
    ∧ false = false :=
  ca_security_collected_invariant bufNoCaRights "ESSOS.LOCAL"
    ⟨"Not found", ⟨[], false, some "Failed to get CASecurity!"⟩, false⟩ (by decide)

/-- C10: `get_hosting_computer` inspects only ACEs whose type tag is exactly
0x00: removing any non-0x00 ACE (an object-specific allow of type 0x05 among
them) from the scanned list never changes the result, and on a concrete DACL
whose only Manage-Certificates grant sits in a type-0x05 ACE to a
non-blacklisted principal the scan still answers "Not found". -/
theorem non_plain_allow_aces_ignored :
    (∀ (domain : String) (pre post : List Ace) (ace : Ace), ace.ace_type ≠ 0 →
        hostingLoop domain (pre ++ ace :: post) = hostingLoop domain (pre ++ post))
    ∧ get_hosting_computer bufObjectAceOnly "ESSOS.LOCAL" = some "Not found" :=
  ⟨fun domain pre post ace h => hostingLoop_skip domain pre post ace h, by decide⟩

theorem non_plain_allow_aces_ignored_witness :
    hostingLoop "ESSOS.LOCAL"
        [⟨5, 0, 40, .AceObject 2 0 ⟨1, 5, [21, 1, 2, 3, 1105]⟩⟩]
      = hostingLoop "ESSOS.LOCAL" [] :=
  non_plain_allow_aces_ignored.1 "ESSOS.LOCAL" [] []
    ⟨5, 0, 40, .AceObject 2 0 ⟨1, 5, [21, 1, 2, 3, 1105]⟩⟩ (by decide)

end RustHound
namespace RustHound

theorem foldl_applyExtension_no_bc (p : EnterpriseCAProperties)
    (exts : List Extension) (h : ∀ e ∈ exts, e.oid ≠ [2, 5, 29, 19]) :
    exts.foldl applyExtension p = p := by
  induction exts generalizing p with
  | nil => rfl
  | cons e exts ih =>
    have he := h e (List.mem_cons_self e exts)
    rw [List.foldl_cons]
    rw [show applyExtension p e = p from by unfold applyExtension; simp [he]]
    exact ih p (fun x hx => h x (List.mem_cons_of_mem _ hx))

theorem applyExtension_bc (p : EnterpriseCAProperties) (c : Bool) (opt : Option Nat) :
    applyExtension p ⟨[2, 5, 29, 19], ParsedExtension.BasicConstraintsExt ⟨c, opt⟩⟩
      = (match opt with
         | some m =>
           if 0 < m then
             { p with hasbasicconstraints := true, basicconstraintpathlength := m }
           else
             { p with hasbasicconstraints := false, basicconstraintpathlength := 0 }
         | none =>
           { p with hasbasicconstraints := false, basicconstraintpathlength := 0 }) := by
  unfold applyExtension
  simp

/-- C6: for a certificate whose Basic Constraints extension (OID 2.5.29.19)
carries a path-length constraint greater than zero, the `cACertificate`
branch records `hasbasicconstraints = true` and the numeric length; if the
constraint is zero or absent, if the extension is missing, or if the
certificate fails to parse at all, it records `hasbasicconstraints = false`
and length 0 (the default values), regardless of surrounding non-BC
extensions. -/
theorem basic_constraints_recorded (sha : String) (n : Nat)
    (pre post : List Extension)
    (hpre : ∀ e ∈ pre, e.oid ≠ [2, 5, 29, 19])
    (hpost : ∀ e ∈ post, e.oid ≠ [2, 5, 29, 19])
    (hn : 0 < n) :
    ((handleCACertificate EnterpriseCAProperties.default sha
        (some ⟨pre ++ ⟨[2, 5, 29, 19], .BasicConstraintsExt ⟨true, some n⟩⟩ :: post⟩)).hasbasicconstraints = true
      ∧ (handleCACertificate EnterpriseCAProperties.default sha
        (some ⟨pre ++ ⟨[2, 5, 29, 19], .BasicConstraintsExt ⟨true, some n⟩⟩ :: post⟩)).basicconstraintpathlength = n)
    ∧ ((handleCACertificate EnterpriseCAProperties.default sha
        (some ⟨pre ++ ⟨[2, 5, 29, 19], .BasicConstraintsExt ⟨true, some 0⟩⟩ :: post⟩)).hasbasicconstraints = false
      ∧ (handleCACertificate EnterpriseCAProperties.default sha
        (some ⟨pre ++ ⟨[2, 5, 29, 19], .BasicConstraintsExt ⟨true, some 0⟩⟩ :: post⟩)).basicconstraintpathlength = 0)
    ∧ ((handleCACertificate EnterpriseCAProperties.default sha
        (some ⟨pre ++ ⟨[2, 5, 29, 19], .BasicConstraintsExt ⟨true, none⟩⟩ :: post⟩)).hasbasicconstraints = false
      ∧ (handleCACertificate EnterpriseCAProperties.default sha
        (some ⟨pre ++ ⟨[2, 5, 29, 19], .BasicConstraintsExt ⟨true, none⟩⟩ :: post⟩)).basicconstraintpathlength = 0)
    ∧ ((handleCACertificate EnterpriseCAProperties.default sha
        (some ⟨pre ++ post⟩)).hasbasicconstraints = false
      ∧ (handleCACertificate EnterpriseCAProperties.default sha
        (some ⟨pre ++ post⟩)).basicconstraintpathlength = 0)
    ∧ ((handleCACertificate EnterpriseCAProperties.default sha
        none).hasbasicconstraints = false
      ∧ (handleCACertificate EnterpriseCAProperties.default sha
        none).basicconstraintpathlength = 0) := by
  have hstep : ∀ (p : EnterpriseCAProperties) (bc : BasicConstraints),
      (pre ++ ⟨[2, 5, 29, 19], ParsedExtension.BasicConstraintsExt bc⟩ :: post).foldl
          applyExtension p
        = post.foldl applyExtension
            (applyExtension p ⟨[2, 5, 29, 19], ParsedExtension.BasicConstraintsExt bc⟩) := by
    intro p bc
    rw [List.foldl_append, foldl_applyExtension_no_bc p pre hpre, List.foldl_cons]
  refine ⟨?_, ?_, ?_, ?_, ⟨rfl, rfl⟩⟩
  · unfold handleCACertificate
    dsimp only
    rw [hstep, applyExtension_bc]
    simp only [if_pos hn]
    rw [foldl_applyExtension_no_bc _ post hpost]
    exact ⟨rfl, rfl⟩
  · unfold handleCACertificate
    dsimp only
    rw [hstep, applyExtension_bc]
    simp only [Nat.lt_irrefl, if_false]
    rw [foldl_applyExtension_no_bc _ post hpost]
    exact ⟨rfl, rfl⟩
  · unfold handleCACertificate
    dsimp only
    rw [hstep, applyExtension_bc]
    rw [foldl_applyExtension_no_bc _ post hpost]
    exact ⟨rfl, rfl⟩
  · unfold handleCACertificate
    dsimp only
    rw [List.foldl_append, foldl_applyExtension_no_bc _ pre hpre,
      foldl_applyExtension_no_bc _ post hpost]
    exact ⟨rfl, rfl⟩

theorem basic_constraints_recorded_witness :
    (handleCACertificate EnterpriseCAProperties.default "A"
        (some ⟨[⟨[2, 5, 29, 19], ParsedExtension.BasicConstraintsExt ⟨true, some 3⟩⟩]⟩)).hasbasicconstraints = true
    ∧ (handleCACertificate EnterpriseCAProperties.default "A"
        (some ⟨[⟨[2, 5, 29, 19], ParsedExtension.BasicConstraintsExt ⟨true, some 3⟩⟩]⟩)).basicconstraintpathlength = 3 :=
  (basic_constraints_recorded "A" 3 [] [] (by simp) (by simp) (by decide)).1

end RustHound
namespace RustHound

/-- C7 counterexample: at a concrete failing certificate (DER parse result
absent) with SHA-1 hash "62F1B1F93C2AB951DEE1F3E0E6E533157C8065DE", the
`cACertificate` branch does NOT leave `certthumbprint` at its default unset
value: it has already been set to the hash before the DER parse was
attempted, refuting the claim that all certificate-derived fields stay at
their defaults on parse failure. -/
theorem cert_parse_failure_thumbprint_set :
    (handleCACertificate EnterpriseCAProperties.default
        "62F1B1F93C2AB951DEE1F3E0E6E533157C8065DE" none).certthumbprint
      ≠ EnterpriseCAProperties.default.certthumbprint := by
  decide

/-- C7 (amended): on a DER certificate parse failure the `cACertificate`
branch leaves the Basic-Constraints-derived fields (`hasbasicconstraints`,
`basicconstraintpathlength`) untouched — at their default unset values when
starting from defaults — while `certthumbprint`, `certname` and `certchain`
are set to the SHA-1 content hash computed before parsing; the failure is
only logged and the branch still returns a value (it is never fatal). -/
theorem cert_parse_failure_fields (p : EnterpriseCAProperties) (sha : String) :
    handleCACertificate EnterpriseCAProperties.default sha none
      = { EnterpriseCAProperties.default with
            certthumbprint := sha, certname := sha, certchain := [sha] }
    ∧ (handleCACertificate p sha none).hasbasicconstraints = p.hasbasicconstraints
    ∧ (handleCACertificate p sha none).basicconstraintpathlength
        = p.basicconstraintpathlength
    ∧ (handleCACertificate p sha none).certthumbprint = sha
    ∧ (handleCACertificate p sha none).certname = sha
    ∧ (handleCACertificate p sha none).certchain = [sha] :=
  ⟨rfl, rfl, rfl, rfl, rfl, rfl⟩

/-- C8 counterexample: called on a freshly constructed `EnterpriseCA`, the
capability queries `get_spntargets` and `get_links` do not return an explicit
empty or not-applicable result: the source bodies abort the process
("Not used by current object."), modelled as `none`. -/
theorem capability_query_aborts :
    EnterpriseCA.new.get_spntargets = none ∧ EnterpriseCA.new.get_links = none :=
  ⟨rfl, rfl⟩

/-- C8 (amended): on every `EnterpriseCA` value, `get_spntargets`,
`get_allowed_to_delegate`, `get_links`, `get_child_objects` and the mutable
variants `get_spntargets_mut` and `get_allowed_to_delegate_mut` abort the
process when called (modelled as `none`); only the corresponding setters
(`set_spntargets`, `set_allowed_to_delegate`, `set_links`,
`set_child_objects`) are explicit no-ops, and `get_haslaps` returns
`false`. -/
theorem capability_queries_abort (ca : EnterpriseCA) :
    ca.get_spntargets = none
    ∧ ca.get_allowed_to_delegate = none
    ∧ ca.get_links = none
    ∧ ca.get_child_objects = none
    ∧ ca.get_spntargets_mut = none
    ∧ ca.get_allowed_to_delegate_mut = none
    ∧ (∀ x, ca.set_spntargets x = ca)
    ∧ (∀ x, ca.set_allowed_to_delegate x = ca)
    ∧ (∀ x, ca.set_links x = ca)
    ∧ (∀ x, ca.set_child_objects x = ca)
    ∧ ca.get_haslaps = false :=
  ⟨rfl, rfl, rfl, rfl, rfl, rfl, fun _ => rfl, fun _ => rfl, fun _ => rfl,
   fun _ => rfl, rfl⟩

end RustHound
